import Mathlib

/-!
Shallow embedding of the elicit command-line lexer and dispatcher.

Sources embedded here:
* `elicit/ui.py` — class `FSM` (transition lookup, push/pop stack, process);
* `elicit/cli.py` — class `CommandParser` (the transition tables built in
  its `initialize` method, the action methods `_addtext`, `_wordbreak`,
  `_doit`, `_slashescape`, `_startvar`, `_vartext`, `_endvar`,
  `_singlequote`, `_doublequote`, `_error`, and `feed`), plus
  `CommandController.call` and `CommandController._expand_aliases`;
* `elicit/env.py` — `Environ.expand`.

Python dynamic behaviour that matters to the claims is modelled explicitly:
an input symbol is an `Option Char` because `FSM.pop` in `ui.py` is
`self.stack.pop()` with no `return`, so it evaluates to `None`, and
`CommandParser.feed` then calls `process(None)`; appending `None` to a
string raises `TypeError`.  Likewise `FSM.get_transition` references the
undefined names `SREType` and `FSMError`: when both the exact and the
wildcard lookup miss, evaluating `SREType` raises `NameError` before the
default transition is ever consulted.
-/

/-- Python exception kinds raised by the modelled code paths. -/
inductive PyErr where
  | typeError
  | nameError
deriving DecidableEq

/-- Python values stored in the Environ dictionary and returned by handlers. -/
inductive PyVal where
  | vint (n : Int)
  | vstr (s : String)
deriving DecidableEq

/-- Python `str()` of a stored value. -/
def pyStr : PyVal → String
  | .vint n => toString n
  | .vstr s => s

/-- Python `int()` conversion where it succeeds (`int(rv)` in
`CommandController.call`). -/
def intOf : PyVal → Option Int
  | .vint n => some n
  | .vstr s => s.toInt?

/-- The `Environ` dictionary (elicit/env.py): string keys to values. -/
abbrev Env := List (String × PyVal)

/-- Dictionary lookup (`self.get(vname)` in `Environ.expand`). -/
def envGet : Env → String → Option PyVal
  | [], _ => none
  | (k, v) :: rest, key => if k = key then some v else envGet rest key

/-- Dictionary item assignment (`self._environ[k] = v`); lookup takes the
first (most recent) binding. -/
def envSet (env : Env) (key : String) (v : PyVal) : Env := (key, v) :: env

/-- The variable-name character class of `_var_re` in env.py and of
`CommandParser.VARCHARS` in cli.py: `[a-zA-Z0-9_?]`. -/
def isVarChar (c : Char) : Bool :=
  c.isAlphanum || c = '_' || c = '?'

/-- Replacement text for one variable occurrence in `Environ.expand`:
`str(tv)` when the name is bound, empty when missing. -/
def varValue (env : Env) (name : String) : List Char :=
  match envGet env name with
  | some v => (pyStr v).toList
  | none => []

/-- Splits a braced-variable tail at the first closing brace, mirroring the
greedy match of the regex alternative for braced names in `_var_re`:
the name is every character before the first closing brace, and the
remainder after it is returned; `none` when no closing brace exists. -/
def bracedSplit (l : List Char) : Option (List Char × List Char) :=
  match l.dropWhile (fun c => c != '}') with
  | _ :: tail => some (l.takeWhile (fun c => c != '}'), tail)
  | [] => none

/-- The scanning loop of `Environ.expand` (env.py): repeatedly find the
leftmost occurrence of a dollar sign followed by either a nonempty run of
variable-name characters or a braced name, replace it by the looked-up
value (missing names expand to nothing), and continue scanning after the
replacement without re-scanning the substituted text.  Every recursive
call removes at least one character, so a fuel equal to the input length
is always sufficient; the fuel-exhausted branch is unreachable when the
function is entered through `Environ.expand`. -/
def expandGo (env : Env) : Nat → List Char → List Char
  | 0, l => l
  | fuel + 1, l =>
    match l with
    | [] => []
    | '$' :: '{' :: rest2 =>
      match bracedSplit rest2 with
      | some (nm, tail) => varValue env nm.asString ++ expandGo env fuel tail
      | none => '$' :: expandGo env fuel ('{' :: rest2)
    | '$' :: rest =>
      if (rest.takeWhile isVarChar).isEmpty then '$' :: expandGo env fuel rest
      else
        varValue env (rest.takeWhile isVarChar).asString ++
          expandGo env fuel (rest.drop (rest.takeWhile isVarChar).length)
    | c :: rest => c :: expandGo env fuel rest

/-- `Environ.expand` on strings. -/
def Environ.expand (env : Env) (s : String) : String :=
  (expandGo env s.toList.length s.toList).asString

/-- Action tags of the transitions registered in `CommandParser.initialize`
(cli.py).  `actNone` is a transition whose action slot is Python `None`;
`errorAct` is `CommandParser._error`, registered as the machine-wide
default transition. -/
inductive TAction where
  | actNone
  | addtext
  | wordbreak
  | doit
  | slashescape
  | startvar
  | vartext
  | endvar
  | singlequote
  | doublequote
  | errorAct
deriving DecidableEq

/-- Combined state of the `FSM` instance (current_state, stack, arg,
varname) and of the owning `CommandParser` (arg_list, _buf) together with
the observable effects: statements handed to `CommandController.call`
(`dispatched`), syntax-error reports from `_error` (`synErrors`) and
variable-expansion error reports from `_endvar` (`expandErrors`).
`varname` is an `Option` because the Python attribute starts out unset and
`_startvar` can store `None` in it; the stack holds `Option Char` because
`_endvar` pushes the raw input symbol, which can be `None`. -/
structure PState where
  fsmState : Nat
  stack : List (Option Char)
  arg : String
  varname : Option String
  buf : String
  argList : List String
  dispatched : List (List String)
  synErrors : Nat
  expandErrors : Nat
deriving DecidableEq

/-- A freshly initialized and reset `CommandParser`: machine in state 0
with empty stack, empty accumulator, empty buffer and argument list. -/
def initState : PState :=
  { fsmState := 0, stack := [], arg := "", varname := none, buf := "",
    argList := [], dispatched := [], synErrors := 0, expandErrors := 0 }

/-- `CommandParser._SPECIAL.get(c, c)`: the escape translation table
(r, n, t, b map to control characters, everything else to itself). -/
def SPECIAL (c : Char) : Char :=
  if c = 'r' then '\r'
  else if c = 'n' then '\n'
  else if c = 't' then '\t'
  else if c = 'b' then '\x08'
  else c

/-- The exact (symbol, state) entries registered by
`CommandParser.initialize` via `add_transition` / `add_transitions`
(the `ANY` entries are in `lookupAny`).  The returned pair is
(action, next state). -/
def lookupExact (c : Char) (s : Nat) : Option (TAction × Option Nat) :=
  if s = 0 then
    if c = ' ' ∨ c = '\t' then some (.wordbreak, some 0)
    else if c = ';' ∨ c = '\n' then some (.doit, some 0)
    else if c = '\\' then some (.actNone, some 1)
    else if c = '$' then some (.startvar, some 7)
    else if c = '\'' then some (.actNone, some 2)
    else if c = '"' then some (.actNone, some 3)
    else none
  else if s = 2 then
    if c = '\'' then some (.singlequote, some 0) else none
  else if s = 3 then
    if c = '"' then some (.doublequote, some 0)
    else if c = '\\' then some (.actNone, some 6)
    else if c = '$' then some (.startvar, some 8)
    else if c = '\'' then some (.actNone, some 5)
    else none
  else if s = 5 then
    if c = '\'' then some (.singlequote, some 3) else none
  else if s = 7 then
    if c = '{' then some (.vartext, some 9)
    else if isVarChar c then some (.vartext, some 7)
    else none
  else if s = 8 then
    if c = '{' then some (.vartext, some 10)
    else if isVarChar c then some (.vartext, some 8)
    else none
  else if s = 9 then
    if c = '}' then some (.endvar, some 0) else none
  else if s = 10 then
    if c = '}' then some (.endvar, some 3) else none
  else none

/-- The `(ANY, state)` wildcard entries registered by
`CommandParser.initialize`. -/
def lookupAny (s : Nat) : Option (TAction × Option Nat) :=
  if s = 0 then some (.addtext, some 0)
  else if s = 1 then some (.slashescape, some 0)
  else if s = 2 then some (.addtext, some 2)
  else if s = 3 then some (.addtext, some 3)
  else if s = 5 then some (.addtext, some 5)
  else if s = 6 then some (.slashescape, some 3)
  else if s = 7 then some (.endvar, some 0)
  else if s = 8 then some (.endvar, some 3)
  else if s = 9 then some (.vartext, some 9)
  else if s = 10 then some (.vartext, some 10)
  else none

/-- The machine-wide default transition registered by
`CommandParser.initialize` through `add_default_transition(self._error, 0)`.
`FSM.get_transition` (ui.py) never reaches it: after the exact and wildcard
lookups miss, it evaluates the undefined global name `SREType`, which
raises `NameError` before the `default_transition` check runs. -/
def defaultTransition : TAction × Option Nat := (.errorAct, some 0)

/-- `FSM.get_transition` (ui.py): exact entry first, then the wildcard
entry for the state; `none` here means the lookup raises `NameError`
(the undefined `SREType` reference), so the default transition above is
dead code.  A `none` input symbol (Python `None`, produced by the broken
`FSM.pop`) can never equal a character key, so it goes straight to the
wildcard entry. -/
def getTransitionE (c : Option Char) (s : Nat) : Option (TAction × Option Nat) :=
  match c with
  | some ch =>
    match lookupExact ch s with
    | some t => some t
    | none => lookupAny s
  | none => lookupAny s

/-- `CommandParser._endvar` (cli.py): on a closing brace the brace is
appended to the variable name, otherwise the terminating symbol is pushed
onto the machine stack; then the accumulated name is expanded through the
Environ collaborator and the value appended to the word accumulator.  A
failure inside `expand` (here: only the `varname is None` case, giving
`TypeError`) is caught and reported through the UI error channel. -/
def endvarAction (env : Env) (c : Option Char) (st : PState) :
    Except (PyErr × PState) PState :=
  if c = some '}' then
    match st.varname with
    | some v =>
      .ok { st with varname := some (v.push '}'),
                    arg := st.arg ++ Environ.expand env (v.push '}') }
    | none => .error (.typeError, st)
  else
    match st.varname with
    | some v =>
      .ok { st with stack := st.stack ++ [c],
                    arg := st.arg ++ Environ.expand env v }
    | none =>
      .ok { st with stack := st.stack ++ [c],
                    expandErrors := st.expandErrors + 1 }

/-- The lexer action methods of `CommandParser` (cli.py).  A `none` symbol
models Python `None`: appending it to a string raises `TypeError`
(`_addtext`, `_slashescape` via `_SPECIAL.get(None, None)`, `_vartext`).
`_error` reports and then calls `fsm.reset()`, which clears the stack and
restores the initial state but touches neither the word accumulator nor
the pending argument list. -/
def runAction (env : Env) :
    TAction → Option Char → PState → Except (PyErr × PState) PState
  | .actNone, _, st => .ok st
  | .addtext, some ch, st => .ok { st with arg := st.arg.push ch }
  | .addtext, none, st => .error (.typeError, st)
  | .wordbreak, _, st =>
    if st.arg ≠ "" then
      .ok { st with argList := st.argList ++ [st.arg], arg := "" }
    else .ok st
  | .doit, _, st =>
    .ok { st with
          dispatched := st.dispatched ++
            [if st.arg ≠ "" then st.argList ++ [st.arg] else st.argList],
          argList := [], arg := "" }
  | .slashescape, some ch, st => .ok { st with arg := st.arg.push (SPECIAL ch) }
  | .slashescape, none, st => .error (.typeError, st)
  | .startvar, c, st => .ok { st with varname := c.map String.singleton }
  | .vartext, some ch, st =>
    match st.varname with
    | some v => .ok { st with varname := some (v.push ch) }
    | none => .error (.typeError, st)
  | .vartext, none, st => .error (.typeError, st)
  | .endvar, c, st => endvarAction env c st
  | .singlequote, _, st =>
    .ok { st with argList := st.argList ++ [st.arg], arg := "" }
  | .doublequote, _, st =>
    .ok { st with argList := st.argList ++ [st.arg], arg := "" }
  | .errorAct, _, st =>
    .ok { st with synErrors := st.synErrors + 1, stack := [], fsmState := 0 }

/-- `FSM.process` (ui.py): look the transition up (a missing transition
raises `NameError`, see `getTransitionE`), run the action if any, then
move to the next state if one was given. -/
def process (env : Env) (c : Option Char) (st : PState) :
    Except (PyErr × PState) PState :=
  match getTransitionE c st.fsmState with
  | none => .error (.nameError, st)
  | some (act, next) =>
    match runAction env act c st with
    | .error e => .error e
    | .ok st1 =>
      match next with
      | some n => .ok { st1 with fsmState := n }
      | none => .ok st1

/-- The push-back loop in `CommandParser.feed`:
`while self._fsm.stack: self._fsm.process(self._fsm.pop())`.
`FSM.pop` (ui.py) is `self.stack.pop()` without a `return`, so it removes
the last stack element but evaluates to `None`, and the machine processes
`None` instead of the pushed-back character.  The loop either empties the
stack or raises; the fuel passed by `feedChars` is always sufficient. -/
def drain (env : Env) : Nat → PState → Except (PyErr × PState) PState
  | 0, st => .ok st
  | fuel + 1, st =>
    if st.stack.isEmpty then .ok st
    else
      match process env none { st with stack := st.stack.dropLast } with
      | .error e => .error e
      | .ok st1 => drain env fuel st1

/-- The character loop of `CommandParser.feed`: process each character,
then run the push-back loop while the stack is nonempty. -/
def feedChars (env : Env) : List Char → PState → Except (PyErr × PState) PState
  | [], st => .ok st
  | c :: cs, st =>
    match process env (some c) st with
    | .error e => .error e
    | .ok st1 =>
      match drain env (2 * st1.stack.length + 4) st1 with
      | .error e => .error e
      | .ok st2 => feedChars env cs st2

/-- `CommandParser.feed` (cli.py): prepend the buffered tail, process every
character, and if the machine did not end in the initial state store the
unconsumed tail (always empty, since the loop consumes all input) as the
new buffer.  Returns the machine's final state — the caller-visible
continuation signal — together with the parser state. -/
def feed (env : Env) (text : String) (st : PState) :
    Except (PyErr × PState) (Nat × PState) :=
  match feedChars env (st.buf ++ text).toList st with
  | .error e => .error e
  | .ok st1 =>
    if st1.fsmState ≠ 0 then (.ok (st1.fsmState, { st1 with buf := "" }))
    else .ok (st1.fsmState, st1)

/-- The alias table of a command object (`BaseCommands._aliases`): alias
name to replacement token list.  Dictionary lookup
(`self._commands._aliases.get(argv[0], None)`). -/
def aliasGet : List (String × List String) → String → Option (List String)
  | [], _ => none
  | (k, v) :: rest, key => if k = key then some v else aliasGet rest key

/-- The distinct first tokens of the alias replacement sequences; the
`seen` dictionary of `_expand_aliases` only ever receives members of this
list, which bounds the number of substitutions. -/
def aliasHeads (aliases : List (String × List String)) : List String :=
  (aliases.filterMap fun p => p.2.head?).dedup

/-- Fuel that provably suffices for the `_expand_aliases` loop. -/
def aliasFuel (aliases : List (String × List String)) : Nat :=
  (aliasHeads aliases).length + 1

/-- The `while 1` loop of `CommandController._expand_aliases` (cli.py):
look the first token up in the alias table; a hit whose replacement head
was already substituted in this pass breaks (alias loop), otherwise the
first token is removed, the replacement tokens are spliced in at the
front, the head is recorded in `seen`, and the loop repeats.  An empty
replacement is falsy in Python and breaks like a miss.  `none` models
fuel exhaustion (shown unreachable) or the `IndexError` Python raises on
an empty argument vector. -/
def expandLoop (aliases : List (String × List String)) :
    Nat → List String → List String → Option (List String)
  | 0, _, _ => none
  | fuel + 1, seen, argv =>
    match argv with
    | [] => none
    | a0 :: rest =>
      match aliasGet aliases a0 with
      | none => some (a0 :: rest)
      | some [] => some (a0 :: rest)
      | some (h :: t) =>
        if h ∈ seen then some (a0 :: rest)
        else expandLoop aliases fuel (h :: seen) (h :: (t ++ rest))

/-- `CommandController._expand_aliases` with its proven-sufficient fuel;
the `getD` default is unreachable for a nonempty argument vector. -/
def expandAliasesT (aliases : List (String × List String))
    (argv : List String) : List String :=
  (expandLoop aliases (aliasFuel aliases) [] argv).getD argv

/-- Outcome of invoking a command handler, as distinguished by the
`try`/`except` clauses of `CommandController.call` (cli.py): a normal
return value, one of the four flow-control exceptions passed through
unchanged, a `CLISyntaxError`, an `IndexError` carrying the number of
traceback levels below the frame of `call` (1 when raised directly in the
handler body), a `getopt.GetoptError`, or any other exception. -/
inductive HandlerOutcome where
  | ret (rv : Option PyVal)
  | newCommand
  | commandQuit
  | commandExit
  | keyboardInterrupt
  | syntaxError (msg : String)
  | indexError (lev : Nat) (msg : String)
  | getoptError (opt : String) (msg : String)
  | otherError (name : String) (msg : String)
deriving DecidableEq

/-- The flow-control exceptions `call` re-raises to the read loop. -/
inductive FlowSig where
  | newCommand
  | commandQuit
  | commandExit
  | keyboardInterrupt
deriving DecidableEq

/-- What `call` prints for a failure: the syntax-error report plus usage
text, the insufficient-arguments report plus usage text, the overridable
`except_hook` report, or the getopt option report. -/
inductive Report where
  | syntaxErr (msg : String) (doc : Option String)
  | insufficientArgs (doc : Option String)
  | exceptHook (name : String) (msg : String)
  | getoptErr (opt : String) (msg : String)
deriving DecidableEq

/-- Is the outcome one of the recognized, reportable (non-flow-control)
exception classes of `call`? -/
def isReportable : HandlerOutcome → Bool
  | .syntaxError _ => true
  | .indexError _ _ => true
  | .getoptError _ _ => true
  | .otherError _ _ => true
  | _ => false

/-- The `try ... except ... else` block of `CommandController.call`
around `rv = meth(argv)` (cli.py lines 127-158), given the outcome of the
handler call and the handler's doc string (its usage text).  Returns the
Python return value of `call` (None except on a normal return), the
updated environment, and the reports printed; flow-control exceptions are
re-raised.  On a normal non-None result the pseudo-variable of the last
status receives `int(rv)` when convertible and 0 otherwise, then the
pseudo-variable of the last result receives the value itself. -/
def dispatchOutcome (env : Env) (doc : Option String) :
    HandlerOutcome → Except FlowSig (Option PyVal × Env × List Report)
  | .ret (some v) =>
    .ok (some v,
         envSet (envSet env "?" (.vint ((intOf v).getD 0))) "_" v, [])
  | .ret none => .ok (none, env, [])
  | .newCommand => .error .newCommand
  | .commandQuit => .error .commandQuit
  | .commandExit => .error .commandExit
  | .keyboardInterrupt => .error .keyboardInterrupt
  | .syntaxError msg => .ok (none, env, [.syntaxErr msg doc])
  | .indexError lev msg =>
    if lev = 1 then .ok (none, env, [.insufficientArgs doc])
    else .ok (none, env, [.exceptHook "IndexError" msg])
  | .getoptError opt msg => .ok (none, env, [.getoptErr opt msg])
  | .otherError name msg => .ok (none, env, [.exceptHook name msg])

/-- A resolvable command handler: its body and its doc string (usage
text). -/
structure Handler where
  run : List String → HandlerOutcome
  doc : Option String

/-- The command object as `call` sees it: `getattr(self._commands, name)`
modelled as a lookup, falling back to `default_command`. -/
structure Commands where
  lookup : String → Option Handler
  defaultH : Handler

/-- Python `s.startswith(p)` for the one-character prefixes tested by
`call` (the reserved underscore and the bang, percent and hash escapes):
true exactly when the first character of the string is that character. -/
def pyStartsWith (s : String) (c : Char) : Bool :=
  match s.toList with
  | [] => false
  | c0 :: _ => c0 == c

/-- Python `s[1:]`: the string without its first character. -/
def pyDrop1 (s : String) : String := (s.toList.drop 1).asString

/-- `CommandController.call` (cli.py): empty argv, empty first word or a
reserved-prefix first word return status 2 untouched; aliases are
expanded; a bang prefix rewrites to the pipe handler, a percent prefix to
the spawn handler, and a hash comment returns status 0; then the first
token resolves to a handler (or the default handler) and the outcome of
invoking it is classified by `dispatchOutcome`.  The arm for an empty
expansion result mirrors an expression Python never reaches (alias
expansion of a nonempty vector is nonempty). -/
def call (cmds : Commands) (aliases : List (String × List String))
    (env : Env) (argv : List String) :
    Except FlowSig (Option PyVal × Env × List Report) :=
  match argv with
  | [] => .ok (some (.vint 2), env, [])
  | a0 :: _ =>
    if a0 = "" ∨ pyStartsWith a0 '_' then .ok (some (.vint 2), env, [])
    else
      match expandAliasesT aliases argv with
      | [] => .ok (some (.vint 2), env, [])
      | b0 :: brest =>
        if pyStartsWith b0 '!' then
          let argv2 := "pipe" :: pyDrop1 b0 :: brest
          let meth := (cmds.lookup "pipe").getD cmds.defaultH
          dispatchOutcome env meth.doc (meth.run argv2)
        else if pyStartsWith b0 '%' then
          let argv2 := "spawn" :: pyDrop1 b0 :: brest
          let meth := (cmds.lookup "spawn").getD cmds.defaultH
          dispatchOutcome env meth.doc (meth.run argv2)
        else if pyStartsWith b0 '#' then .ok (some (.vint 0), env, [])
        else
          let meth := (cmds.lookup b0).getD cmds.defaultH
          dispatchOutcome env meth.doc (meth.run (b0 :: brest))

/-- A one-command table binding the name cmd to a handler that produces
the given outcome with the given doc string; the default handler reports
nothing and returns status 2 (like `default_command`). -/
def mkCmds (out : HandlerOutcome) (doc : Option String) : Commands :=
  { lookup := fun n => if n = "cmd" then some { run := fun _ => out, doc := doc } else none,
    defaultH := { run := fun _ => .ret (some (.vint 2)), doc := none } }

/-- The exception kind, if any, with which a `feed` call aborted. -/
def errOf : Except (PyErr × PState) (Nat × PState) → Option PyErr
  | .error (e, _) => some e
  | .ok _ => none

/-- The machine state `feed` returned (its continuation signal), when it
returned at all. -/
def stateNumOf : Except (PyErr × PState) (Nat × PState) → Option Nat
  | .error _ => none
  | .ok (n, _) => some n

/-- The statements handed to the controller so far, surviving a raised
exception (the Python parser object outlives the exception). -/
def dispatchedOf : Except (PyErr × PState) (Nat × PState) → List (List String)
  | .error (_, st) => st.dispatched
  | .ok (_, st) => st.dispatched

/-- The word accumulator after a `feed` call. -/
def argOf : Except (PyErr × PState) (Nat × PState) → String
  | .error (_, st) => st.arg
  | .ok (_, st) => st.arg

/-- Two consecutive `feed` calls on the same parser, as the `interact`
read loop performs them when the first call signals an incomplete
statement and a continuation line is read. -/
def feedTwice (env : Env) (t1 t2 : String) :
    Except (PyErr × PState) (Nat × PState) :=
  match feed env t1 initState with
  | .error e => .error e
  | .ok (_, st1) => feed env t2 st1

/-- A parser state sitting in a machine state (4) for which `initialize`
registered no transition at all, with a word in progress and a pending
argument: the configuration the syntax-error path would have to clean
up. -/
def c4State : PState :=
  { initState with fsmState := 4, arg := "abc", argList := ["x"] }

/-- The number of distinct replacement heads not yet recorded in `seen`:
the termination measure of the `_expand_aliases` loop. -/
def remHeads (aliases : List (String × List String)) (seen : List String) : Nat :=
  ((aliasHeads aliases).filter fun h => decide (h ∉ seen)).length

theorem aliasGet_mem {aliases : List (String × List String)} {key : String}
    {v : List String} (h : aliasGet aliases key = some v) : (key, v) ∈ aliases := by
  induction aliases with
  | nil => simp [aliasGet] at h
  | cons p rest ih =>
    obtain ⟨k, w⟩ := p
    by_cases hk : k = key
    · subst hk
      simp only [aliasGet, if_pos] at h
      obtain rfl := Option.some.inj h
      exact List.mem_cons_self _ _
    · simp only [aliasGet, if_neg hk] at h
      exact List.mem_cons_of_mem _ (ih h)

theorem length_filter_mono {α : Type} (p q : α → Bool)
    (himp : ∀ x, p x = true → q x = true) :
    ∀ l : List α, (l.filter p).length ≤ (l.filter q).length
  | [] => Nat.le_refl _
  | a :: l => by
    by_cases hp : p a = true
    · rw [List.filter_cons_of_pos hp, List.filter_cons_of_pos (himp a hp)]
      simpa using length_filter_mono p q himp l
    · rw [List.filter_cons_of_neg (by simpa using hp)]
      by_cases hq : q a = true
      · rw [List.filter_cons_of_pos hq]
        exact Nat.le_succ_of_le (length_filter_mono p q himp l)
      · rw [List.filter_cons_of_neg (by simpa using hq)]
        exact length_filter_mono p q himp l

theorem length_filter_lt {α : Type} (p q : α → Bool)
    (himp : ∀ x, p x = true → q x = true) (a : α)
    (hqa : q a = true) (hpa : p a = false) :
    ∀ l : List α, a ∈ l → (l.filter p).length < (l.filter q).length
  | b :: l, hmem => by
    rcases List.mem_cons.mp hmem with hb | hl
    · subst hb
      rw [List.filter_cons_of_neg (by simp [hpa]), List.filter_cons_of_pos hqa]
      simpa using Nat.lt_succ_of_le (length_filter_mono p q himp l)
    · by_cases hp : p b = true
      · rw [List.filter_cons_of_pos hp, List.filter_cons_of_pos (himp b hp)]
        simpa using length_filter_lt p q himp a hqa hpa l hl
      · rw [List.filter_cons_of_neg (by simpa using hp)]
        by_cases hq : q b = true
        · rw [List.filter_cons_of_pos hq]
          exact Nat.lt_succ_of_lt (length_filter_lt p q himp a hqa hpa l hl)
        · rw [List.filter_cons_of_neg (by simpa using hq)]
          exact length_filter_lt p q himp a hqa hpa l hl

theorem expandLoop_isSome (aliases : List (String × List String)) :
    ∀ (fuel : Nat) (seen argv : List String), argv ≠ [] →
      remHeads aliases seen < fuel →
      (expandLoop aliases fuel seen argv).isSome = true := by
  intro fuel
  induction fuel with
  | zero => intro seen argv _ hlt; exact absurd hlt (Nat.not_lt_zero _)
  | succ n ih =>
    intro seen argv hne hlt
    cases argv with
    | nil => exact absurd rfl hne
    | cons a0 rest =>
      simp only [expandLoop]
      cases hg : aliasGet aliases a0 with
      | none => simp
      | some v =>
        cases v with
        | nil => simp
        | cons h t =>
          by_cases hs : h ∈ seen
          · simp [hs]
          · have hmem : h ∈ aliasHeads aliases := by
              unfold aliasHeads
              exact List.mem_dedup.mpr
                (List.mem_filterMap.mpr ⟨(a0, h :: t), aliasGet_mem hg, rfl⟩)
            have hlt2 : remHeads aliases (h :: seen) < remHeads aliases seen := by
              unfold remHeads
              refine length_filter_lt _ _ ?_ h ?_ ?_ _ hmem
              · intro x hx
                simp only [decide_eq_true_eq, List.mem_cons, not_or] at hx
                simp [hx.2]
              · simp [hs]
              · simp
            have hrec := ih (h :: seen) (h :: (t ++ rest)) (by simp) (by omega)
            simp [hs, hrec]

/-- Claim C1 (code bug): the spec says the character terminating an
unbraced variable name is pushed back and reprocessed, so that with HOME
bound to /home/u the input of a dollar sign, HOME, a slash, bin and a
newline tokenizes to the single word /home/u/bin.  The code instead
raises TypeError: `FSM.pop` discards the popped symbol and returns None,
`feed` re-processes None, and `_addtext` appends None to a string.  The
expansion itself did happen (the accumulator holds /home/u when the
exception fires) but no statement is ever dispatched. -/
theorem c1_unbraced_variable_crash :
    errOf (feed [("HOME", PyVal.vstr "/home/u")] "$HOME/bin\n" initState) =
      some .typeError ∧
    dispatchedOf (feed [("HOME", PyVal.vstr "/home/u")] "$HOME/bin\n" initState) = [] ∧
    argOf (feed [("HOME", PyVal.vstr "/home/u")] "$HOME/bin\n" initState) = "/home/u" := by
  refine ⟨rfl, rfl, rfl⟩

/-- Claim C2 counterexample: the claim asserts that a quoted section
adjacent to bare characters joins into one word, and that tokenization of
balanced-quote inputs equals POSIX word splitting; but the input a,
quoted b, c followed by a newline dispatches the two words ab and c, not
the single POSIX word abc. -/
theorem c2_cex_adjacent_quote_splits :
    dispatchedOf (feed [] "a'b'c\n" initState) = [["ab", "c"]] ∧
    ([["ab", "c"]] : List (List String)) ≠ [["abc"]] := by
  exact ⟨rfl, by decide⟩

/-- Claim C2 amended: the quoted example with internal blanks works
(echo, quoted a-blank-b, c gives the three words echo, a b, c), but a
closing quote always flushes the accumulated word, so a quoted section
followed by adjacent bare characters splits into two words: a'b'c gives
ab and c. -/
theorem c2_quote_flush_behavior :
    dispatchedOf (feed [] "echo 'a b' c\n" initState) = [["echo", "a b", "c"]] ∧
    dispatchedOf (feed [] "a'b'c\n" initState) = [["ab", "c"]] := by
  refine ⟨rfl, rfl⟩

/-- Claim C3 counterexample: the claim asserts that a matched pair of
single quotes embedded in a double-quoted section flushes nothing, so the
double-quoted a'b'c would be the single argument abc; but the closing
embedded single quote runs `_singlequote`, which appends the accumulated
word to the argument list, so the code dispatches the two arguments ab
and c. -/
theorem c3_cex_embedded_quote_flushes :
    dispatchedOf (feed [] "\"a'b'c\"\n" initState) = [["ab", "c"]] ∧
    ([["ab", "c"]] : List (List String)) ≠ [["abc"]] := by
  exact ⟨rfl, by decide⟩

/-- Claim C3 amended: inside a double-quoted section, the closing quote of
an embedded single-quote pair flushes the word accumulated so far as a
completed argument (the wiring reuses `_singlequote` for the sub-state),
so the double-quoted a'b'c tokenizes to the two arguments ab and c rather
than one. -/
theorem c3_embedded_quote_behavior :
    dispatchedOf (feed [] "\"a'b'c\"\n" initState) = [["ab", "c"]] := by
  exact rfl

/-- Claim C7: feeding a line with an unterminated double quote dispatches
nothing and leaves the machine in the double-quote state 3 (non-initial:
the initial state is 0), which is the continuation signal; feeding the
closing line afterwards dispatches the statement echo, open-newline-quote,
with the newline that fell inside the open quote preserved literally. -/
theorem c7_continuation_preserves_newline :
    initState.fsmState = 0 ∧
    stateNumOf (feed [] "echo \"open\n" initState) = some 3 ∧ (3 : Nat) ≠ 0 ∧
    dispatchedOf (feed [] "echo \"open\n" initState) = [] ∧
    stateNumOf (feedTwice [] "echo \"open\n" "quote\"\n") = some 0 ∧
    dispatchedOf (feedTwice [] "echo \"open\n" "quote\"\n") =
      [["echo", "open\nquote"]] := by
  refine ⟨rfl, rfl, by decide, rfl, rfl, rfl⟩

/-- Claim C9: alias expansion substitutes the whole replacement sequence
for the first token and leaves the remaining tokens in order: with ll
aliased to ls -l, any vector starting with ll becomes ls, -l followed by
the rest, and in particular ll -a extra becomes ls -l -a extra. -/
theorem c9_alias_substitution :
    (∀ rest : List String,
      expandAliasesT [("ll", ["ls", "-l"])] ("ll" :: rest) = "ls" :: "-l" :: rest) ∧
    expandAliasesT [("ll", ["ls", "-l"])] ["ll", "-a", "extra"] =
      ["ls", "-l", "-a", "extra"] := by
  exact ⟨fun rest => rfl, rfl⟩

/-- Claim C4 counterexample: in a configuration with no transition for the
(symbol, state) pair — machine state 4, any symbol — the claim predicts a
syntax-error report, a reset to the initial state, and the discarding of
the word accumulator and pending argument list.  Instead `process` raises
NameError (the lookup evaluates the undefined name SREType before the
default transition), leaving the state, the accumulator abc and the
pending argument x all untouched and producing no report. -/
theorem c4_cex_missing_transition :
    process [] (some 'q') c4State = .error (.nameError, c4State) ∧
    c4State.arg = "abc" ∧ c4State.argList = ["x"] ∧
    c4State.synErrors = 0 ∧ c4State.fsmState = 4 := by
  refine ⟨rfl, rfl, rfl, rfl, rfl⟩

/-- Claim C4 amended: when the machine hits a symbol/state combination
with neither an exact nor a wildcard transition, `get_transition` raises
NameError (it evaluates the undefined global SREType before consulting
the registered default transition), so the registered `_error` reporter
never runs: nothing is reported, the machine state is not reset, and the
in-progress word accumulator and pending argument list are left exactly
as they were; the exception propagates out of `feed`. -/
theorem c4_missing_transition_nameerror :
    ∀ (env : Env) (c : Char) (st : PState),
      lookupExact c st.fsmState = none → lookupAny st.fsmState = none →
      process env (some c) st = .error (.nameError, st) := by
  intro env c st h1 h2
  simp [process, getTransitionE, h1, h2]

theorem c4_missing_transition_witness :
    process [] (some 'z') c4State = .error (.nameError, c4State) :=
  c4_missing_transition_nameerror [] 'z' c4State (by decide) (by decide)

/-- Claim C5: alias expansion terminates for every alias table and every
nonempty argument vector — the proven-sufficient fuel is never exhausted —
and with the self-referential alias ls=ls the vector ls expands to the
literal ls, while the mutual cycle a=b, b=a expands a to the literal a
(the looping name stays in place). -/
theorem c5_alias_expansion_terminates :
    (∀ (aliases : List (String × List String)) (argv : List String),
      argv ≠ [] → (expandLoop aliases (aliasFuel aliases) [] argv).isSome = true) ∧
    expandAliasesT [("ls", ["ls"])] ["ls"] = ["ls"] ∧
    expandAliasesT [("a", ["b"]), ("b", ["a"])] ["a"] = ["a"] := by
  refine ⟨?_, rfl, rfl⟩
  intro aliases argv hne
  apply expandLoop_isSome aliases (aliasFuel aliases) [] argv hne
  have : remHeads aliases [] = (aliasHeads aliases).length := by
    unfold remHeads
    rw [List.filter_eq_self.mpr]
    intro a _
    simp
  rw [this]
  exact Nat.lt_succ_self _

theorem c5_alias_termination_witness :
    (expandLoop [("x", ["y"])] (aliasFuel [("x", ["y"])]) [] ["x", "z"]).isSome = true :=
  c5_alias_expansion_terminates.1 [("x", ["y"])] ["x", "z"] (by decide)

/-- Claim C6: when a handler resolved by `call` raises an IndexError whose
traceback is one level deep (raised directly in the handler body), the
dispatcher prints the insufficient-arguments report together with the
handler's usage text; at any other depth it routes the exception to the
overridable `except_hook`; and the two report shapes are distinct, so the
two provenances are never conflated. -/
theorem c6_indexerror_depth_classification :
    ∀ (env : Env) (doc : Option String) (msg : String) (rest : List String)
      (lev : Nat),
      (lev = 1 → call (mkCmds (.indexError lev msg) doc) [] env ("cmd" :: rest) =
        .ok (none, env, [.insufficientArgs doc])) ∧
      (lev ≠ 1 → call (mkCmds (.indexError lev msg) doc) [] env ("cmd" :: rest) =
        .ok (none, env, [.exceptHook "IndexError" msg])) ∧
      (∀ (d : Option String) (n m : String),
        Report.insufficientArgs d ≠ Report.exceptHook n m) := by
  intro env doc msg rest lev
  have hc : call (mkCmds (.indexError lev msg) doc) [] env ("cmd" :: rest) =
      dispatchOutcome env doc (.indexError lev msg) := rfl
  refine ⟨?_, ?_, ?_⟩
  · intro h
    subst h
    rw [hc]
    rfl
  · intro h
    rw [hc]
    simp [dispatchOutcome, h]
  · intro d n m h
    cases h

theorem c6_depth_witness :
    call (mkCmds (.indexError 1 "list index out of range") (some "usage"))
        [] [] ["cmd", "x"] =
      .ok (none, [], [.insufficientArgs (some "usage")]) ∧
    call (mkCmds (.indexError 2 "list index out of range") (some "usage"))
        [] [] ["cmd", "x"] =
      .ok (none, [], [.exceptHook "IndexError" "list index out of range"]) :=
  ⟨(c6_indexerror_depth_classification [] (some "usage") "list index out of range"
      ["x"] 1).1 rfl,
   (c6_indexerror_depth_classification [] (some "usage") "list index out of range"
      ["x"] 2).2.1 (by decide)⟩

/-- Claim C8: after a backslash, exactly the letters r, n, t, b are
translated to carriage return, linefeed, tab and backspace, and every
other character is appended verbatim; processing the escaped character
from the bare escape state (1) returns to the bare state (0) while
processing it from the double-quote escape state (6) returns to the
double-quote state (3), and the backslash itself moves bare to state 1
and double-quote to state 6; concretely, backslash-n between a and b
yields a word with a real linefeed (bare and double-quoted) and
backslash-z yields the word azb. -/
theorem c8_escape_mapping :
    (SPECIAL 'r' = '\r' ∧ SPECIAL 'n' = '\n' ∧ SPECIAL 't' = '\t' ∧
      SPECIAL 'b' = '\x08') ∧
    (∀ c : Char, c ≠ 'r' → c ≠ 'n' → c ≠ 't' → c ≠ 'b' → SPECIAL c = c) ∧
    (∀ (env : Env) (st : PState) (c : Char), st.fsmState = 1 →
      process env (some c) st =
        .ok { st with arg := st.arg.push (SPECIAL c), fsmState := 0 }) ∧
    (∀ (env : Env) (st : PState) (c : Char), st.fsmState = 6 →
      process env (some c) st =
        .ok { st with arg := st.arg.push (SPECIAL c), fsmState := 3 }) ∧
    (∀ (env : Env) (st : PState), st.fsmState = 0 →
      process env (some '\\') st = .ok { st with fsmState := 1 }) ∧
    (∀ (env : Env) (st : PState), st.fsmState = 3 →
      process env (some '\\') st = .ok { st with fsmState := 6 }) ∧
    dispatchedOf (feed [] "a\\nb\n" initState) = [["a\nb"]] ∧
    dispatchedOf (feed [] "a\\zb\n" initState) = [["azb"]] ∧
    dispatchedOf (feed [] "\"a\\nb\"\n" initState) = [["a\nb"]] := by
  refine ⟨⟨rfl, rfl, rfl, rfl⟩, ?_, ?_, ?_, ?_, ?_, rfl, rfl, rfl⟩
  · intro c h1 h2 h3 h4
    simp [SPECIAL, h1, h2, h3, h4]
  · intro env st c h
    simp [process, getTransitionE, lookupExact, lookupAny, runAction, h]
  · intro env st c h
    simp [process, getTransitionE, lookupExact, lookupAny, runAction, h]
  · intro env st h
    simp [process, getTransitionE, lookupExact, lookupAny, runAction, h]
  · intro env st h
    simp [process, getTransitionE, lookupExact, lookupAny, runAction, h]

theorem c8_escape_witness :
    SPECIAL 'z' = 'z' ∧
    process [] (some 'q') { initState with fsmState := 1 } =
      .ok { { initState with fsmState := 1 } with
            arg := ({ initState with fsmState := 1 } : PState).arg.push (SPECIAL 'q'),
            fsmState := 0 } ∧
    process [] (some 'n') { initState with fsmState := 6 } =
      .ok { { initState with fsmState := 6 } with
            arg := ({ initState with fsmState := 6 } : PState).arg.push (SPECIAL 'n'),
            fsmState := 3 } :=
  ⟨c8_escape_mapping.2.1 'z' (by decide) (by decide) (by decide) (by decide),
   c8_escape_mapping.2.2.1 [] { initState with fsmState := 1 } 'q' rfl,
   c8_escape_mapping.2.2.2.1 [] { initState with fsmState := 6 } 'n' rfl⟩

/-- Claim C10: a handler invocation through `call` that ends in a
reportable (non-flow-control) exception leaves the environment — in
particular the last-result and last-status pseudo-variables — unchanged
and returns no value; the pseudo-variables are written only when the
handler returns normally with a non-None result, in which case the
last-status entry receives the integer conversion of the result (0 when
not convertible) and the last-result entry receives the result itself;
a normal None return also changes nothing. -/
theorem c10_pseudovariable_updates :
    ∀ (env : Env) (doc : Option String) (out : HandlerOutcome)
      (rest : List String),
      (isReportable out = true →
        ∃ reps, call (mkCmds out doc) [] env ("cmd" :: rest) =
          .ok (none, env, reps)) ∧
      (∀ v : PyVal, out = .ret (some v) →
        call (mkCmds out doc) [] env ("cmd" :: rest) =
          .ok (some v,
               envSet (envSet env "?" (.vint ((intOf v).getD 0))) "_" v, []) ∧
        envGet (envSet (envSet env "?" (.vint ((intOf v).getD 0))) "_" v) "_" =
          some v ∧
        envGet (envSet (envSet env "?" (.vint ((intOf v).getD 0))) "_" v) "?" =
          some (.vint ((intOf v).getD 0))) ∧
      (out = .ret none →
        call (mkCmds out doc) [] env ("cmd" :: rest) = .ok (none, env, [])) := by
  intro env doc out rest
  have hc : call (mkCmds out doc) [] env ("cmd" :: rest) =
      dispatchOutcome env doc out := rfl
  refine ⟨?_, ?_, ?_⟩
  · intro h
    cases out with
    | syntaxError msg => exact ⟨[.syntaxErr msg doc], hc⟩
    | indexError lev msg =>
      by_cases hl : lev = 1
      · subst hl
        exact ⟨[.insufficientArgs doc], hc⟩
      · exact ⟨[.exceptHook "IndexError" msg],
          hc.trans (by simp [dispatchOutcome, hl])⟩
    | getoptError opt msg => exact ⟨[.getoptErr opt msg], hc⟩
    | otherError name msg => exact ⟨[.exceptHook name msg], hc⟩
    | ret rv => simp [isReportable] at h
    | newCommand => simp [isReportable] at h
    | commandQuit => simp [isReportable] at h
    | commandExit => simp [isReportable] at h
    | keyboardInterrupt => simp [isReportable] at h
  · intro v hv
    subst hv
    exact ⟨hc, rfl, rfl⟩
  · intro h
    subst h
    exact hc

theorem c10_pseudovariable_witness :
    (∃ reps, call (mkCmds (.otherError "ValueError" "boom") none) [] [] ["cmd"] =
      .ok (none, [], reps)) ∧
    call (mkCmds (.ret (some (.vstr "7"))) none) [] [] ["cmd"] =
      .ok (some (.vstr "7"),
           envSet (envSet [] "?" (.vint ((intOf (.vstr "7")).getD 0))) "_"
             (.vstr "7"), []) ∧
    call (mkCmds (.ret none) none) [] [] ["cmd"] = .ok (none, [], []) :=
  ⟨(c10_pseudovariable_updates [] none (.otherError "ValueError" "boom") []).1 rfl,
   ((c10_pseudovariable_updates [] none (.ret (some (.vstr "7"))) []).2.1
      (.vstr "7") rfl).1,
   (c10_pseudovariable_updates [] none (.ret none) []).2.2 rfl⟩
